import Mathlib

/-!
Verification of the Scavenger Mine Python coordinator
(`chayvottungaddresstheolist.py`).

The file shallowly embeds the pure and loop-structured parts of the
program: hex parsing as used by `int(s, 16)`, Python's bitwise operators
on unbounded integers, the difficulty evaluator `hash_meets_difficulty`,
the preimage builder `build_preimage` and the oracle payload, the CSV
challenge reader `read_challenges_from_csv`, the bounded submission-retry
loop of `Worker.run`, and the worker's inner nonce-attempt loop.
Effectful collaborators (the HTTP endpoint, the hash daemon, the random
nonce source, the ISO-8601 timestamp parse) are modelled as explicit
scripted inputs, exactly as the specification's test scenarios script
them.
-/

/-- Value of one hexadecimal digit character, as accepted by Python's
`int(s, 16)` (`0`-`9`, `a`-`f`, `A`-`F`). -/
def hexDigitVal (c : Char) : Option Nat :=
  let n := c.toNat
  if 48 ≤ n ∧ n ≤ 57 then some (n - 48)
  else if 97 ≤ n ∧ n ≤ 102 then some (n - 97 + 10)
  else if 65 ≤ n ∧ n ≤ 70 then some (n - 65 + 10)
  else none

/-- Accumulating base-16 parse of a digit string. -/
def parseHexDigitsAux : List Char → Nat → Option Nat
  | [], acc => some acc
  | c :: cs, acc =>
    match hexDigitVal c with
    | some d => parseHexDigitsAux cs (acc * 16 + d)
    | none => none

/-- Parse a nonempty string of hex digits to its value; `none` when the
string is empty or contains a non-digit. -/
def parseHexDigits (s : List Char) : Option Nat :=
  match s with
  | [] => none
  | _ :: _ => parseHexDigitsAux s 0

/-- Model of Python's `int(s, 16)`: an optional single sign followed by
one or more hex digits. (Python additionally tolerates surrounding
whitespace, a `0x` prefix and single underscores between digits; the
hash and difficulty strings this program feeds to `int` use none of
these, so they are not modelled.) Raising `ValueError` is modelled as
`none`. -/
def pyIntBase16 (s : List Char) : Option Int :=
  match s with
  | '-' :: rest => (parseHexDigits rest).map (fun n => -(n : Int))
  | '+' :: rest => (parseHexDigits rest).map (fun n => (n : Int))
  | _ => (parseHexDigits s).map (fun n => (n : Int))

/-- Python's `~x` on unbounded integers: `~x = -x - 1`. -/
def pyNot (a : Int) : Int := -a - 1

/-- Python's `x & y` on unbounded integers (two's-complement bitwise
and, where a negative `-(n+1)` has the bit pattern of `~n`). -/
def pyAnd : Int → Int → Int
  | Int.ofNat m, Int.ofNat n => Int.ofNat (m &&& n)
  | Int.ofNat m, Int.negSucc n => Int.ofNat (m - (m &&& n))
  | Int.negSucc m, Int.ofNat n => Int.ofNat (n - (n &&& m))
  | Int.negSucc m, Int.negSucc n => Int.negSucc (m ||| n)

/-- `hash_meets_difficulty` from the source: take the first 8 hex
characters of the hash as `left4`, parse the difficulty as `mask`, and
test `left4 & (~mask & 0xFFFFFFFF) == 0`; any parse failure or a hash
shorter than 8 characters yields `False`. -/
def hash_meets_difficulty (hash_hex difficulty_hex : String) : Bool :=
  if hash_hex.toList.length < 8 then false
  else
    match pyIntBase16 (hash_hex.toList.take 8), pyIntBase16 difficulty_hex.toList with
    | some left4, some mask => pyAnd left4 (pyAnd (pyNot mask) (4294967295 : Int)) == 0
    | some _, none => false
    | none, _ => false

example : hash_meets_difficulty "00000000abc" "ffffffff" = true := by decide
example : hash_meets_difficulty "00000001abc" "ffff0000" = false := by decide
example : hash_meets_difficulty "00010000abc" "ffff0000" = true := by decide
example : hash_meets_difficulty "0001" "ffff0000" = false := by decide
example : hash_meets_difficulty "00000000" "zz" = false := by decide
example : hash_meets_difficulty "12345678" "ffffffff" = true := by decide
example : hash_meets_difficulty "12345678" "00000000" = false := by decide
example : hash_meets_difficulty "00000000" "00000000" = true := by decide
example : hash_meets_difficulty "00000000" "-1" = true := by decide
example : hash_meets_difficulty "10000000" "1ffffffff" = true := by decide
example : hash_meets_difficulty "10000000" "100000000" = false := by decide
example : hash_meets_difficulty "10000000" "0" = false := by decide

/-- A challenge record as built by `read_challenges_from_csv` and
consumed by `build_preimage` and `Worker.run`. `no_pre_mine_hour` is
`Option` because `build_preimage` reads it with
`challenge.get("no_pre_mine_hour", "")`. -/
structure Challenge where
  challenge_id : String
  difficulty : String
  no_pre_mine : String
  no_pre_mine_hour : Option String
  latest_submission : String
deriving Repr, DecidableEq

/-- `build_preimage` from the source: the fields, in the source's
`parts` list order, joined with no delimiter. -/
def build_preimage (nonce_hex : String) (address : String) (challenge : Challenge) : String :=
  let parts : List String := [
    nonce_hex,
    address,
    challenge.challenge_id,
    challenge.difficulty,
    challenge.no_pre_mine,
    challenge.latest_submission,
    challenge.no_pre_mine_hour.getD ""
  ]
  String.join parts

/-- The oracle-facing payload built in `Worker.run`:
`rom = challenge.get("no_pre_mine", "")` then `f"{rom}|{pre}"`. -/
def pre_with_rom (nonce_hex : String) (address : String) (challenge : Challenge) : String :=
  let pre := build_preimage nonce_hex address challenge
  let rom := challenge.no_pre_mine
  rom ++ "|" ++ pre

/-- The default deadline literal in `read_challenges_from_csv`. -/
def farFutureDeadline : String := "2099-12-31T23:59:59.000Z"

/-- ASCII whitespace as stripped by Python `str.strip()` (Python also
strips other Unicode whitespace, which CSV fields here never contain). -/
def isPySpace (c : Char) : Bool :=
  c = ' ' ∨ c = '\t' ∨ c = '\n' ∨ c = '\r' ∨ c = '\x0b' ∨ c = '\x0c'

/-- Model of Python `str.strip()`: drop leading and trailing whitespace. -/
def pyStrip (s : String) : String :=
  String.mk (((s.toList.dropWhile isPySpace).reverse.dropWhile isPySpace).reverse)

/-- The dict built for one CSV row (each field is
`row[k].strip() if len(row) > k else default`). -/
def rowToChallenge (row : List String) : Challenge :=
  { challenge_id := if 0 < row.length then pyStrip (row.getD 0 "") else ""
    difficulty := if 1 < row.length then pyStrip (row.getD 1 "") else ""
    no_pre_mine := if 2 < row.length then pyStrip (row.getD 2 "") else ""
    no_pre_mine_hour := some (if 3 < row.length then pyStrip (row.getD 3 "") else "")
    latest_submission := if 4 < row.length then pyStrip (row.getD 4 "") else farFutureDeadline }

/-- `read_challenges_from_csv` from the source, over the data rows that
follow the header row: a row with fewer than 5 columns is skipped
(`if len(row) < 5: continue`); otherwise the row's challenge is kept
when `challenge_id`, `difficulty` and `no_pre_mine` are all truthy
(nonempty after strip). -/
def read_challenges_from_csv : List (List String) → List Challenge
  | [] => []
  | row :: rest =>
    if row.length < 5 then read_challenges_from_csv rest
    else
      let challenge := rowToChallenge row
      if challenge.challenge_id ≠ "" ∧ challenge.difficulty ≠ "" ∧ challenge.no_pre_mine ≠ "" then
        challenge :: read_challenges_from_csv rest
      else
        read_challenges_from_csv rest

/-- `post_solution`, with the HTTP call scripted: `response` is the
status code of the response, or `none` when the request raised. The
second component is the number of Error Log entries appended: the
function logs exactly one entry on a request-level exception and none
otherwise. -/
def post_solution (response : Option Nat) : Option Nat × Nat :=
  match response with
  | some code => (some code, 0)
  | none => (none, 1)

/-- State of the submission-retry loop in `Worker.run`:
`attempts` is the loop variable, `calls` counts `post_solution` calls,
`sleeps` counts the `time.sleep(1)` delays, `errors` counts Error Log
entries, `sc` is the last status, `stop` is the `stop_event` flag. -/
structure SubmitState where
  attempts : Nat
  calls : Nat
  sleeps : Nat
  errors : Nat
  sc : Option Nat
  stop : Bool
deriving Repr, DecidableEq

/-- The `while attempts < 3` retry loop of `Worker.run`. `endpoint i`
scripts the status of the `i`-th `post_solution` call (`none` for a
request-level error). The structural `fuel` argument only bounds the
recursion: every iteration increments `attempts`, so fuel `3` from
`attempts = 0` never exhausts before the loop guard fails. -/
def submitLoopGo (endpoint : Nat → Option Nat) : Nat → SubmitState → SubmitState
  | 0, st => st
  | fuel + 1, st =>
    if st.attempts < 3 then
      let r := post_solution (endpoint st.calls)
      let st1 : SubmitState :=
        { st with calls := st.calls + 1, errors := st.errors + r.2, sc := r.1 }
      if r.1 = some 201 then
        { st1 with stop := true }
      else
        submitLoopGo endpoint fuel
          { st1 with attempts := st1.attempts + 1, sleeps := st1.sleeps + 1 }
    else st

/-- The whole submission protocol for one found nonce (`Worker.run`
lines 306-331): run the retry loop from a fresh `attempts = 0`,
`sc = None` state, then `if sc != 201: stop_event.set()`. -/
def submitProtocol (endpoint : Nat → Option Nat) : SubmitState :=
  let st := submitLoopGo endpoint 3 ⟨0, 0, 0, 0, none, false⟩
  if st.sc ≠ some 201 then { st with stop := true } else st

example : (submitProtocol (fun _ => some 400)).calls = 3 := by decide
example : (submitProtocol (fun _ => some 400)).stop = true := by decide
example : (submitProtocol (fun _ => some 400)).errors = 0 := by decide
example : (submitProtocol (fun _ => none)).errors = 3 := by decide
example : (submitProtocol (fun i => if i < 2 then some 400 else some 201)).calls = 3 := by decide
example : (submitProtocol (fun i => if i < 2 then some 400 else some 201)).sleeps = 2 := by decide
example : (submitProtocol (fun _ => some 201)).calls = 1 := by decide
example : (submitProtocol (fun _ => some 201)).stop = true := by decide

/-- Python truthiness guard in `Worker.run`:
`if latest_ts and time.time() > latest_ts: break`. `latest_ts` is the
parsed deadline (`none` when `datetime.fromisoformat` raised); a parsed
value of exactly `0.0` (the Unix epoch) is falsy in Python, so the
comparison is short-circuited away. -/
def deadlineExpired (latest_ts : Option Int) (now : Int) : Bool :=
  match latest_ts with
  | none => false
  | some t => t ≠ 0 && now > t

/-- Scripted environment for one worker running on one acquired
challenge. `nonces i` scripts the `i`-th `hex64_nonce()` draw;
`oracle i payload` scripts the `i`-th `_send_pre_and_recv_hash` call
(`none` = no response from the daemon); `endpoint j` scripts the `j`-th
`post_solution` call of the submission protocol; `latest_ts` is the
parsed `latest_submission` deadline and `now` the current clock. -/
structure WorkerEnv where
  address : String
  challenge : Challenge
  latest_ts : Option Int
  now : Int
  nonces : Nat → String
  oracle : Nat → String → Option String
  endpoint : Nat → Option Nat
  submit_on_find : Bool

/-- Observable state of the worker's inner attempt loop: `exchanges`
counts oracle exchanges performed, `hashes` the worker's
`stats.add_hashes(1)` contributions, `tries` the local counter,
`solutions` the `stats.inc_solutions()` calls, `stop` the `stop_event`
flag, `submitCalls`/`submitErrors` the submission-protocol activity. -/
structure WorkerState where
  exchanges : Nat
  hashes : Nat
  tries : Nat
  solutions : Nat
  stop : Bool
  submitCalls : Nat
  submitErrors : Nat
deriving Repr, DecidableEq

/-- The `for _ in range(NONCE_BATCH)` loop body of `Worker.run`: check
the stop flag, check the deadline (with Python truthiness), draw a
nonce, build the payload, exchange with the oracle; a `None` response
backs off and continues without counting; a response counts one hash
and is checked against the difficulty; on success the solution counter
increments, the submission protocol (when enabled) runs and may set the
stop flag, and the loop breaks. -/
def workerLoopGo (env : WorkerEnv) : Nat → WorkerState → WorkerState
  | 0, st => st
  | fuel + 1, st =>
    if st.stop then st
    else if deadlineExpired env.latest_ts env.now then st
    else
      let nonce := env.nonces st.exchanges
      let payload := pre_with_rom nonce env.address env.challenge
      match env.oracle st.exchanges payload with
      | none => workerLoopGo env fuel { st with exchanges := st.exchanges + 1 }
      | some hash_hex =>
        let st1 : WorkerState :=
          { st with exchanges := st.exchanges + 1, tries := st.tries + 1,
                    hashes := st.hashes + 1 }
        if hash_meets_difficulty hash_hex env.challenge.difficulty then
          let st2 : WorkerState := { st1 with solutions := st1.solutions + 1 }
          if env.submit_on_find then
            let out := submitProtocol env.endpoint
            { st2 with submitCalls := st2.submitCalls + out.calls,
                       submitErrors := st2.submitErrors + out.errors,
                       stop := st2.stop || out.stop }
          else st2
        else workerLoopGo env fuel st1

/-- `NONCE_BATCH` from the source. -/
def NONCE_BATCH : Nat := 1024

/-- One pass of the worker's inner attempt loop over an acquired
challenge, from a fresh per-run state with initial stop flag `stop0`. -/
def workerBatch (env : WorkerEnv) (stop0 : Bool) : WorkerState :=
  workerLoopGo env NONCE_BATCH ⟨0, 0, 0, 0, stop0, 0, 0⟩

/-! ### Helper lemmas on hex parsing and Python bitwise arithmetic -/

theorem hexDigitVal_lt_16 {c : Char} {d : Nat} (h : hexDigitVal c = some d) : d < 16 := by
  simp only [hexDigitVal] at h
  split_ifs at h <;> simp_all <;> omega

theorem parseHexDigitsAux_lt {l : List Char} {acc v : Nat}
    (h : parseHexDigitsAux l acc = some v) : v < (acc + 1) * 16 ^ l.length := by
  induction l generalizing acc with
  | nil =>
    simp [parseHexDigitsAux] at h
    simp [h, Nat.lt_succ_self]
  | cons c cs ih =>
    unfold parseHexDigitsAux at h
    cases hc : hexDigitVal c with
    | none => rw [hc] at h; exact absurd h (by simp)
    | some d =>
      rw [hc] at h
      have hd := hexDigitVal_lt_16 hc
      have hv := ih h
      have hstep : (acc * 16 + d + 1) * 16 ^ cs.length ≤ (acc + 1) * 16 ^ (cs.length + 1) := by
        rw [pow_succ]
        calc (acc * 16 + d + 1) * 16 ^ cs.length
            ≤ ((acc + 1) * 16) * 16 ^ cs.length := by
              apply Nat.mul_le_mul_right
              omega
          _ = (acc + 1) * (16 ^ cs.length * 16) := by ring
      calc v < (acc * 16 + d + 1) * 16 ^ cs.length := hv
        _ ≤ (acc + 1) * 16 ^ (cs.length + 1) := hstep
        _ = (acc + 1) * 16 ^ (c :: cs).length := by simp

theorem parseHexDigits_lt {l : List Char} {v : Nat}
    (h : parseHexDigits l = some v) (hlen : l.length = 8) : v < 2 ^ 32 := by
  cases l with
  | nil => simp [parseHexDigits] at h
  | cons c cs =>
    have := @parseHexDigitsAux_lt (c :: cs) 0 v
      (by simpa [parseHexDigits] using h)
    rw [hlen] at this
    omega

theorem parseHexDigits_pyIntBase16 {l : List Char} {v : Nat}
    (h : parseHexDigits l = some v) : pyIntBase16 l = some (v : Int) := by
  cases l with
  | nil => simp [parseHexDigits] at h
  | cons c cs =>
    have hminus : c ≠ '-' := by
      rintro rfl
      rw [show parseHexDigits ('-' :: cs) = none from by
        simp [parseHexDigits, parseHexDigitsAux, show hexDigitVal '-' = none from rfl]] at h
      exact absurd h (by simp)
    have hplus : c ≠ '+' := by
      rintro rfl
      rw [show parseHexDigits ('+' :: cs) = none from by
        simp [parseHexDigits, parseHexDigitsAux, show hexDigitVal '+' = none from rfl]] at h
      exact absurd h (by simp)
    unfold pyIntBase16
    split
    · next heq => exact absurd (List.cons.injEq .. ▸ heq).1 hminus
    · next heq => exact absurd (List.cons.injEq .. ▸ heq).1 hplus
    · rw [h]; rfl

theorem pyNot_ofNat (n : Nat) : pyNot (Int.ofNat n) = Int.negSucc n := by
  unfold pyNot
  rw [Int.negSucc_eq, Int.ofNat_eq_natCast]
  ring

theorem pyAnd_mask_const (a : Int) : pyAnd a (4294967295 : Int) = a % (4294967296 : Int) := by
  have h32 : (4294967295 : Nat) = 2 ^ 32 - 1 := by norm_num
  cases a with
  | ofNat k =>
    show Int.ofNat (k &&& 4294967295) = _
    rw [h32, Nat.and_pow_two_sub_one_eq_mod, Int.ofNat_eq_natCast, Int.ofNat_eq_natCast]
    omega
  | negSucc k =>
    show Int.ofNat (4294967295 - (4294967295 &&& k)) = _
    rw [h32, Nat.and_comm, Nat.and_pow_two_sub_one_eq_mod, Int.ofNat_eq_natCast,
      Int.negSucc_eq]
    omega

/-- Full evaluation of the difficulty test on well-formed input: with
`left4` the value of the hash's first 8 hex digits and `mask` the value
of the difficulty digits, the test is
`left4 &&& ((2^32 - 1) - mask % 2^32) == 0`. -/
theorem hash_meets_difficulty_eval {h d : String} {left4 mask : Nat}
    (hlen : 8 ≤ h.toList.length)
    (hh : parseHexDigits (h.toList.take 8) = some left4)
    (hd : parseHexDigits d.toList = some mask) :
    hash_meets_difficulty h d = decide (left4 &&& (2 ^ 32 - 1 - mask % 2 ^ 32) = 0) := by
  unfold hash_meets_difficulty
  rw [if_neg (by omega), parseHexDigits_pyIntBase16 hh, parseHexDigits_pyIntBase16 hd]
  show (pyAnd (Int.ofNat left4) (pyAnd (pyNot (Int.ofNat mask)) 4294967295) == 0) = _
  rw [pyNot_ofNat]
  show (pyAnd (Int.ofNat left4) (Int.ofNat (4294967295 - (4294967295 &&& mask))) == 0) = _
  rw [show (4294967295 : Nat) = 2 ^ 32 - 1 from by norm_num, Nat.and_comm,
    Nat.and_pow_two_sub_one_eq_mod]
  show (Int.ofNat (left4 &&& (2 ^ 32 - 1 - mask % 2 ^ 32)) == 0) = _
  cases hz : decide (left4 &&& (2 ^ 32 - 1 - mask % 2 ^ 32) = 0) <;>
    simp_all [Int.ofNat_eq_zero]

/-! ### Claim theorems on the difficulty evaluator -/

/-- C1: for every hash whose first 8 characters are hex digits (with at
least 8 characters in total) and every difficulty string of hex digits,
`hash_meets_difficulty` returns `true` iff the unsigned 32-bit value
`left4` of the hash's first 8 hex characters, ANDed with the 32-bit
bitwise complement of the parsed mask, is zero; in particular with mask
`FFFFFFFF` every such hash meets the difficulty, and with mask
`00000000` a hash meets it iff its first 8 hex characters encode 0. -/
theorem C1_difficulty_evaluator (h d : String) (left4 mask : Nat)
    (hlen : 8 ≤ h.toList.length)
    (hh : parseHexDigits (h.toList.take 8) = some left4)
    (hd : parseHexDigits d.toList = some mask) :
    (hash_meets_difficulty h d = true ↔ left4 &&& (2 ^ 32 - 1 - mask % 2 ^ 32) = 0)
    ∧ hash_meets_difficulty h "FFFFFFFF" = true
    ∧ (hash_meets_difficulty h "00000000" = true ↔ left4 = 0) := by
  have hbound : left4 < 2 ^ 32 := by
    apply parseHexDigits_lt hh
    rw [List.length_take]
    omega
  refine ⟨?_, ?_, ?_⟩
  · rw [hash_meets_difficulty_eval hlen hh hd]
    simp
  · rw [hash_meets_difficulty_eval hlen hh
      (show parseHexDigits (String.toList "FFFFFFFF") = some 4294967295 from by decide)]
    simp
  · rw [hash_meets_difficulty_eval hlen hh
      (show parseHexDigits (String.toList "00000000") = some 0 from by decide)]
    have hland : left4 &&& (2 ^ 32 - 1 - 0 % 2 ^ 32) = left4 := by
      have : (2 : Nat) ^ 32 - 1 - 0 % 2 ^ 32 = 2 ^ 32 - 1 := by norm_num
      rw [this, Nat.and_pow_two_sub_one_eq_mod, Nat.mod_eq_of_lt hbound]
    rw [hland]
    simp

/-- Closed instance of C1 at a concrete hash and difficulty. -/
theorem C1_difficulty_evaluator_witness :
    8 ≤ (String.toList "12345678").length
    ∧ parseHexDigits ((String.toList "12345678").take 8) = some 305419896
    ∧ parseHexDigits (String.toList "ffff0000") = some 4294901760
    ∧ ((hash_meets_difficulty "12345678" "ffff0000" = true
          ↔ 305419896 &&& (2 ^ 32 - 1 - 4294901760 % 2 ^ 32) = 0)
        ∧ hash_meets_difficulty "12345678" "FFFFFFFF" = true
        ∧ (hash_meets_difficulty "12345678" "00000000" = true ↔ 305419896 = 0)) :=
  ⟨by decide, by decide, by decide,
    C1_difficulty_evaluator "12345678" "ffff0000" 305419896 4294901760
      (by decide) (by decide) (by decide)⟩

/-- C8: the difficulty evaluator is total and returns `false` on every
malformed input: a hash shorter than 8 characters, a hash whose first 8
characters do not parse as hex, or a difficulty string that does not
parse as hex. -/
theorem C8_difficulty_evaluator_total (h d : String)
    (hbad : h.toList.length < 8
      ∨ pyIntBase16 (h.toList.take 8) = none
      ∨ pyIntBase16 d.toList = none) :
    hash_meets_difficulty h d = false := by
  unfold hash_meets_difficulty
  rcases hbad with hb | hb | hb
  · rw [if_pos hb]
  · by_cases hl : h.toList.length < 8
    · rw [if_pos hl]
    · rw [if_neg hl, hb]
  · by_cases hl : h.toList.length < 8
    · rw [if_pos hl]
    · rw [if_neg hl, hb]
      cases pyIntBase16 (h.toList.take 8) <;> rfl

/-- Closed instances of C8 for each of the three malformed shapes. -/
theorem C8_difficulty_evaluator_total_witness :
    ((String.toList "0001").length < 8
        ∨ pyIntBase16 ((String.toList "0001").take 8) = none
        ∨ pyIntBase16 (String.toList "ffff0000") = none)
    ∧ hash_meets_difficulty "0001" "ffff0000" = false
    ∧ hash_meets_difficulty "zzzzzzzz" "ffff0000" = false
    ∧ hash_meets_difficulty "12345678" "not hex" = false :=
  ⟨Or.inl (by decide),
    C8_difficulty_evaluator_total "0001" "ffff0000" (Or.inl (by decide)),
    C8_difficulty_evaluator_total "zzzzzzzz" "ffff0000" (Or.inr (Or.inl (by decide))),
    C8_difficulty_evaluator_total "12345678" "not hex" (Or.inr (Or.inr (by decide)))⟩

/-- C10: the evaluator's result depends only on the parsed difficulty
mask modulo `2^32`: two difficulty strings whose parsed values are
congruent modulo `2^32` give the same result on every hash, so a mask
of `2^32` or larger is silently reduced rather than rejected. -/
theorem C10_mask_reduced_mod_32 (h d1 d2 : String) (m1 m2 : Int)
    (h1 : pyIntBase16 d1.toList = some m1)
    (h2 : pyIntBase16 d2.toList = some m2)
    (hm : m1 % 2 ^ 32 = m2 % 2 ^ 32) :
    hash_meets_difficulty h d1 = hash_meets_difficulty h d2 := by
  unfold hash_meets_difficulty
  by_cases hl : h.toList.length < 8
  · simp only [if_pos hl]
  · simp only [if_neg hl]
    rw [h1, h2]
    cases pyIntBase16 (h.toList.take 8) with
    | none => rfl
    | some left4 =>
      have hmask : pyAnd (pyNot m1) 4294967295 = pyAnd (pyNot m2) 4294967295 := by
        rw [pyAnd_mask_const, pyAnd_mask_const]
        unfold pyNot
        omega
      show (pyAnd left4 (pyAnd (pyNot m1) 4294967295) == 0)
          = (pyAnd left4 (pyAnd (pyNot m2) 4294967295) == 0)
      rw [hmask]

/-- Closed instance of C10: the masks `100000000` (which parses to
`2^32`) and `0` are interchangeable. -/
theorem C10_mask_reduced_mod_32_witness :
    pyIntBase16 (String.toList "100000000") = some 4294967296
    ∧ pyIntBase16 (String.toList "0") = some 0
    ∧ (4294967296 : Int) % 2 ^ 32 = (0 : Int) % 2 ^ 32
    ∧ hash_meets_difficulty "12345678" "100000000"
        = hash_meets_difficulty "12345678" "0" :=
  ⟨by decide, by decide, by decide,
    C10_mask_reduced_mod_32 "12345678" "100000000" "0" 4294967296 0
      (by decide) (by decide) (by decide)⟩

/-! ### Helper lemmas on the submission-retry loop -/

theorem post_solution_eq (r : Option Nat) :
    post_solution r = (r, if r = none then 1 else 0) := by
  cases r <;> rfl

/-- Number of request-level errors (`none` responses) among `k`
consecutive endpoint calls starting at index `start`. -/
def countNone (e : Nat → Option Nat) : Nat → Nat → Nat
  | _, 0 => 0
  | start, k + 1 => (if e start = none then 1 else 0) + countNone e (start + 1) k

/-- The worker state after one failed submission attempt (non-201
status or request-level error): `attempts += 1`, one more call, one
`time.sleep(1)`, the error logged when the call raised, `sc` updated. -/
def failState (e : Nat → Option Nat) (st : SubmitState) : SubmitState :=
  { st with
      attempts := st.attempts + 1
      calls := st.calls + 1
      sleeps := st.sleeps + 1
      errors := st.errors + (if e st.calls = none then 1 else 0)
      sc := e st.calls }

theorem submitLoopGo_fail_step (e : Nat → Option Nat) (fuel : Nat) (st : SubmitState)
    (h : st.attempts < 3) (hfail : e st.calls ≠ some 201) :
    submitLoopGo e (fuel + 1) st = submitLoopGo e fuel (failState e st) := by
  simp only [submitLoopGo]
  rw [if_pos h]
  simp only [post_solution_eq]
  rw [if_neg hfail]
  rfl

theorem submitLoopGo_succ_step (e : Nat → Option Nat) (fuel : Nat) (st : SubmitState)
    (h : st.attempts < 3) (hsucc : e st.calls = some 201) :
    submitLoopGo e (fuel + 1) st
      = { st with calls := st.calls + 1, sc := some 201, stop := true } := by
  simp only [submitLoopGo]
  rw [if_pos h]
  simp only [post_solution_eq]
  rw [if_pos hsucc, hsucc]
  simp

theorem submitLoopGo_stopped (e : Nat → Option Nat) (fuel : Nat) (st : SubmitState)
    (h : ¬ st.attempts < 3) : submitLoopGo e fuel st = st := by
  cases fuel with
  | zero => rfl
  | succ fuel => simp only [submitLoopGo]; rw [if_neg h]

/-- Full characterization of the retry loop when the `k`-th call (after
`k` failures) returns 201. -/
theorem submitLoopGo_succ_at (e : Nat → Option Nat) :
    ∀ (k fuel : Nat) (st : SubmitState), k < fuel → st.attempts + k < 3 →
    (∀ i, i < k → e (st.calls + i) ≠ some 201) → e (st.calls + k) = some 201 →
    submitLoopGo e fuel st =
      { attempts := st.attempts + k, calls := st.calls + k + 1, sleeps := st.sleeps + k,
        errors := st.errors + countNone e st.calls k, sc := some 201, stop := true } := by
  intro k
  induction k with
  | zero =>
    intro fuel st hf ha _ hsucc
    cases fuel with
    | zero => omega
    | succ fuel =>
      rw [submitLoopGo_succ_step e fuel st (by omega) (by simpa using hsucc)]
      simp [countNone]
  | succ k ih =>
    intro fuel st hf ha hfail hsucc
    cases fuel with
    | zero => omega
    | succ fuel =>
      rw [submitLoopGo_fail_step e fuel st (by omega)
        (by simpa using hfail 0 (by omega))]
      rw [ih fuel (failState e st) (by omega) (by simp [failState]; omega)
        (by intro i hi
            simp only [failState]
            have := hfail (i + 1) (by omega)
            simpa [Nat.add_assoc, Nat.add_comm 1 i] using this)
        (by simp only [failState]
            simpa [Nat.add_assoc, Nat.add_comm 1 k] using hsucc)]
      simp only [failState]
      rw [SubmitState.mk.injEq]
      refine ⟨by omega, by omega, by omega, ?_, rfl, rfl⟩
      rw [show countNone e st.calls (k + 1)
          = (if e st.calls = none then 1 else 0) + countNone e (st.calls + 1) k from rfl]
      omega

/-- Characterization of the retry loop when all three calls fail. -/
theorem submitLoopGo_all_fail (e : Nat → Option Nat)
    (hf : ∀ i, i < 3 → e i ≠ some 201) :
    submitLoopGo e 3 ⟨0, 0, 0, 0, none, false⟩
      = { attempts := 3, calls := 3, sleeps := 3,
          errors := countNone e 0 3, sc := e 2, stop := false } := by
  have h1 : submitLoopGo e 3 ⟨0, 0, 0, 0, none, false⟩
      = submitLoopGo e 2 ⟨1, 1, 1, 0 + (if e 0 = none then 1 else 0), e 0, false⟩ :=
    submitLoopGo_fail_step e 2 ⟨0, 0, 0, 0, none, false⟩ (by norm_num) (hf 0 (by omega))
  have h2 : submitLoopGo e 2 ⟨1, 1, 1, 0 + (if e 0 = none then 1 else 0), e 0, false⟩
      = submitLoopGo e 1
          ⟨2, 2, 2, 0 + (if e 0 = none then 1 else 0) + (if e 1 = none then 1 else 0),
            e 1, false⟩ :=
    submitLoopGo_fail_step e 1 ⟨1, 1, 1, 0 + (if e 0 = none then 1 else 0), e 0, false⟩
      (by norm_num) (hf 1 (by omega))
  have h3 : submitLoopGo e 1
        ⟨2, 2, 2, 0 + (if e 0 = none then 1 else 0) + (if e 1 = none then 1 else 0),
          e 1, false⟩
      = submitLoopGo e 0
          ⟨3, 3, 3, 0 + (if e 0 = none then 1 else 0) + (if e 1 = none then 1 else 0)
              + (if e 2 = none then 1 else 0), e 2, false⟩ :=
    submitLoopGo_fail_step e 0
      ⟨2, 2, 2, 0 + (if e 0 = none then 1 else 0) + (if e 1 = none then 1 else 0), e 1, false⟩
      (by norm_num) (hf 2 (by omega))
  rw [h1, h2, h3]
  have hcn : countNone e 0 3
      = 0 + (if e 0 = none then 1 else 0) + (if e 1 = none then 1 else 0)
          + (if e 2 = none then 1 else 0) := by
    show (if e 0 = none then 1 else 0)
        + ((if e 1 = none then 1 else 0) + ((if e 2 = none then 1 else 0) + 0)) = _
    ring
  rw [hcn]
  rfl

theorem submitLoopGo_calls_mono (e : Nat → Option Nat) :
    ∀ (fuel : Nat) (st : SubmitState), st.calls ≤ (submitLoopGo e fuel st).calls := by
  intro fuel
  induction fuel with
  | zero => intro st; simp [submitLoopGo]
  | succ fuel ih =>
    intro st
    by_cases ha : st.attempts < 3
    · by_cases hsc : e st.calls = some 201
      · rw [submitLoopGo_succ_step e fuel st ha hsc]
        simp
      · rw [submitLoopGo_fail_step e fuel st ha hsc]
        exact Nat.le_trans (Nat.le_succ st.calls) (ih (failState e st))
    · rw [submitLoopGo_stopped e (fuel + 1) st ha]

theorem submitLoopGo_calls_le (e : Nat → Option Nat) :
    ∀ (fuel : Nat) (st : SubmitState),
      (submitLoopGo e fuel st).calls ≤ st.calls + fuel := by
  intro fuel
  induction fuel with
  | zero => intro st; simp [submitLoopGo]
  | succ fuel ih =>
    intro st
    by_cases ha : st.attempts < 3
    · by_cases hsc : e st.calls = some 201
      · rw [submitLoopGo_succ_step e fuel st ha hsc]
        show st.calls + 1 ≤ st.calls + (fuel + 1)
        omega
      · rw [submitLoopGo_fail_step e fuel st ha hsc]
        refine Nat.le_trans (ih (failState e st)) ?_
        show st.calls + 1 + fuel ≤ st.calls + (fuel + 1)
        omega
    · rw [submitLoopGo_stopped e (fuel + 1) st ha]
      omega

theorem submitLoopGo_errors_eq (e : Nat → Option Nat) :
    ∀ (fuel : Nat) (st : SubmitState),
      (submitLoopGo e fuel st).errors
        = st.errors + countNone e st.calls ((submitLoopGo e fuel st).calls - st.calls) := by
  intro fuel
  induction fuel with
  | zero => intro st; simp [submitLoopGo, countNone]
  | succ fuel ih =>
    intro st
    by_cases ha : st.attempts < 3
    · by_cases hsc : e st.calls = some 201
      · rw [submitLoopGo_succ_step e fuel st ha hsc]
        show st.errors = st.errors + countNone e st.calls (st.calls + 1 - st.calls)
        rw [show st.calls + 1 - st.calls = 1 from by omega]
        simp [countNone, hsc]
      · rw [submitLoopGo_fail_step e fuel st ha hsc, ih]
        have hm := submitLoopGo_calls_mono e fuel (failState e st)
        generalize hC : (submitLoopGo e fuel (failState e st)).calls = C at hm ⊢
        simp only [failState] at hm ⊢
        rw [show C - st.calls = (C - (st.calls + 1)) + 1 from by omega]
        rw [show countNone e st.calls ((C - (st.calls + 1)) + 1)
            = (if e st.calls = none then 1 else 0)
              + countNone e (st.calls + 1) (C - (st.calls + 1)) from rfl]
        omega
    · rw [submitLoopGo_stopped e (fuel + 1) st ha]
      simp [countNone]

theorem submitProtocol_fields (e : Nat → Option Nat) :
    (submitProtocol e).calls = (submitLoopGo e 3 ⟨0, 0, 0, 0, none, false⟩).calls
    ∧ (submitProtocol e).errors = (submitLoopGo e 3 ⟨0, 0, 0, 0, none, false⟩).errors
    ∧ (submitProtocol e).sleeps = (submitLoopGo e 3 ⟨0, 0, 0, 0, none, false⟩).sleeps := by
  unfold submitProtocol
  dsimp only
  by_cases hc : (submitLoopGo e 3 ⟨0, 0, 0, 0, none, false⟩).sc ≠ some 201
  · simp [if_pos hc]
  · simp [if_neg hc]

/-- Scripted endpoint: non-201 on the first two calls, 201 on the third. -/
def endpointThirdTime201 : Nat → Option Nat := fun i => if i < 2 then some 500 else some 201

/-- Scripted endpoint: every call returns status 400 (never 201). -/
def endpointAlways400 : Nat → Option Nat := fun _ => some 400

/-- C2: a 201 status is the only success terminal condition of the
submission protocol: if the first `k` calls are not 201 and call `k`
(with `k < 3`) returns 201, exactly `k + 1` attempts are made, the stop
signal is set, and each failed attempt was followed by one 1-second
sleep; with non-201 on the first two attempts and 201 on the third,
this gives exactly 3 attempts. -/
theorem C2_submit_success_terminal (e : Nat → Option Nat) (k : Nat) (hk : k < 3)
    (hfail : ∀ i, i < k → e i ≠ some 201) (hsucc : e k = some 201) :
    (submitProtocol e).calls = k + 1 ∧ (submitProtocol e).stop = true
      ∧ (submitProtocol e).sleeps = k ∧ (submitProtocol e).sc = some 201 := by
  have h := submitLoopGo_succ_at e k 3 ⟨0, 0, 0, 0, none, false⟩ hk
    (by show 0 + k < 3; omega)
    (by intro i hi; show e (0 + i) ≠ some 201; rw [Nat.zero_add]; exact hfail i hi)
    (by show e (0 + k) = some 201; rw [Nat.zero_add]; exact hsucc)
  unfold submitProtocol
  rw [h]
  rw [if_neg (by simp)]
  refine ⟨by show 0 + k + 1 = k + 1; omega, rfl, by show 0 + k = k; omega, rfl⟩

/-- Closed instance of C2: non-201 twice then 201 gives exactly 3
attempts, 2 inter-attempt sleeps, and the stop signal set. -/
theorem C2_submit_success_terminal_witness :
    (2 < 3) ∧ (∀ i, i < 2 → endpointThirdTime201 i ≠ some 201)
    ∧ endpointThirdTime201 2 = some 201
    ∧ ((submitProtocol endpointThirdTime201).calls = 3
        ∧ (submitProtocol endpointThirdTime201).stop = true
        ∧ (submitProtocol endpointThirdTime201).sleeps = 2
        ∧ (submitProtocol endpointThirdTime201).sc = some 201) :=
  ⟨by decide, by decide, by decide,
    C2_submit_success_terminal endpointThirdTime201 2 (by decide) (by decide) (by decide)⟩

/-- C3: the submission protocol never makes more than 3 calls, and when
the first 3 calls all fail to return 201 it makes exactly 3 calls and
still sets the stop signal. -/
theorem C3_submit_exhaustion (e : Nat → Option Nat) :
    (submitProtocol e).calls ≤ 3
    ∧ ((∀ i, i < 3 → e i ≠ some 201) →
        (submitProtocol e).calls = 3 ∧ (submitProtocol e).stop = true) := by
  constructor
  · have hle := submitLoopGo_calls_le e 3 ⟨0, 0, 0, 0, none, false⟩
    have hfe := (submitProtocol_fields e).1
    rw [hfe]
    exact le_trans hle (by show 0 + 3 ≤ 3; omega)
  · intro hf
    unfold submitProtocol
    rw [submitLoopGo_all_fail e hf]
    rw [if_pos (by show e 2 ≠ some 201; exact hf 2 (by omega))]
    exact ⟨rfl, rfl⟩

/-- Closed instance of C3 at an endpoint that always returns 400. -/
theorem C3_submit_exhaustion_witness :
    (submitProtocol endpointAlways400).calls ≤ 3
    ∧ (∀ i, i < 3 → endpointAlways400 i ≠ some 201)
    ∧ ((submitProtocol endpointAlways400).calls = 3
        ∧ (submitProtocol endpointAlways400).stop = true) :=
  ⟨(C3_submit_exhaustion endpointAlways400).1, by decide,
    (C3_submit_exhaustion endpointAlways400).2 (by decide)⟩

/-- C7 counterexample: with an endpoint that always returns status 400,
all 3 submission attempts fail (no 201), yet zero Error Log entries are
recorded — refuting the claim that every failed attempt is logged. -/
theorem C7_error_log_counterexample :
    (submitProtocol endpointAlways400).calls = 3
    ∧ (submitProtocol endpointAlways400).sc = some 400
    ∧ (submitProtocol endpointAlways400).errors = 0 := by decide

/-- C7 (amended): only submission attempts that end in a request-level
error (an exception inside `post_solution`) append an Error Log entry —
exactly one each; attempts that return a non-201 status append none. In
particular three straight 400 responses log nothing, while three
request-level errors log three entries. -/
theorem C7_error_log_request_errors_only (e : Nat → Option Nat) :
    (submitProtocol e).errors = countNone e 0 (submitProtocol e).calls
    ∧ (submitProtocol endpointAlways400).errors = 0
    ∧ (submitProtocol (fun _ => (none : Option Nat))).errors = 3 := by
  refine ⟨?_, by decide, by decide⟩
  have h := submitLoopGo_errors_eq e 3 ⟨0, 0, 0, 0, none, false⟩
  have hfe := submitProtocol_fields e
  rw [hfe.1, hfe.2.1, h]
  show 0 + countNone e 0 (_ - 0) = _
  rw [Nat.zero_add, Nat.sub_zero]

/-! ### Claim theorems on the preimage builder and the CSV reader -/

/-- C5: the preimage is exactly the concatenation, with no delimiters,
of nonce, address, challenge_id, difficulty, no_pre_mine,
latest_submission, no_pre_mine_hour (empty string if absent), in that
order; and the oracle payload is exactly no_pre_mine, one `|`, then the
preimage. (Determinism is immediate: both are pure functions of their
arguments.) -/
theorem C5_preimage_and_payload (nonce address : String) (challenge : Challenge) :
    build_preimage nonce address challenge
      = nonce ++ address ++ challenge.challenge_id ++ challenge.difficulty
          ++ challenge.no_pre_mine ++ challenge.latest_submission
          ++ challenge.no_pre_mine_hour.getD ""
    ∧ pre_with_rom nonce address challenge
      = challenge.no_pre_mine ++ "|" ++ build_preimage nonce address challenge := by
  constructor
  · show String.join _ = _
    simp [String.join]
  · rfl

/-- C9 counterexample: a 4-column row whose identifier, difficulty and
domain fields are all present and nonempty is dropped entirely — the
claimed far-future default for a missing deadline is never applied. -/
theorem C9_csv_counterexample :
    read_challenges_from_csv [["id1", "ff000000", "dom", "hr"]] = []
    ∧ (["id1", "ff000000", "dom", "hr"] : List String).length = 4 := by
  constructor
  · rfl
  · rfl

/-- C9 (amended): a data row with at least 5 columns is kept iff its
stripped challenge_id, difficulty and no_pre_mine are all nonempty (and
then yields exactly its `rowToChallenge` record); a row with fewer than
5 columns is always skipped, so the far-future deadline default of
`rowToChallenge` is never exercised by the reader; and the reader
processes rows independently, one by one. -/
theorem C9_csv_row_filtering (row : List String) (rest : List (List String)) :
    (read_challenges_from_csv (row :: rest)
        = read_challenges_from_csv [row] ++ read_challenges_from_csv rest)
    ∧ (5 ≤ row.length →
        (rowToChallenge row).challenge_id ≠ "" →
        (rowToChallenge row).difficulty ≠ "" →
        (rowToChallenge row).no_pre_mine ≠ "" →
        read_challenges_from_csv [row] = [rowToChallenge row])
    ∧ (5 ≤ row.length →
        ((rowToChallenge row).challenge_id = "" ∨ (rowToChallenge row).difficulty = ""
          ∨ (rowToChallenge row).no_pre_mine = "") →
        read_challenges_from_csv [row] = [])
    ∧ (row.length < 5 → read_challenges_from_csv [row] = []) := by
  refine ⟨?_, ?_, ?_, ?_⟩
  · by_cases h5 : row.length < 5
    · simp [read_challenges_from_csv, h5]
    · simp only [read_challenges_from_csv, if_neg h5]
      by_cases hok : (rowToChallenge row).challenge_id ≠ ""
          ∧ (rowToChallenge row).difficulty ≠ "" ∧ (rowToChallenge row).no_pre_mine ≠ ""
      · simp [hok]
      · simp [hok]
  · intro h5 h1 h2 h3
    simp [read_challenges_from_csv, Nat.not_lt.mpr h5, h1, h2, h3]
  · intro h5 hbad
    have hnot : ¬ ((rowToChallenge row).challenge_id ≠ ""
        ∧ (rowToChallenge row).difficulty ≠ "" ∧ (rowToChallenge row).no_pre_mine ≠ "") := by
      rcases hbad with hb | hb | hb <;> simp [hb]
    simp [read_challenges_from_csv, Nat.not_lt.mpr h5, hnot]
  · intro h5
    simp [read_challenges_from_csv, h5]

/-- Closed instance of C9 (amended): a complete 5-column row is kept, a
5-column row with an empty difficulty is dropped, and a 4-column row is
dropped. -/
theorem C9_csv_row_filtering_witness :
    read_challenges_from_csv [["id1", "ff000000", "dom", "hr", "2030-01-01T00:00:00Z"]]
      = [⟨"id1", "ff000000", "dom", some "hr", "2030-01-01T00:00:00Z"⟩]
    ∧ read_challenges_from_csv [["id1", "", "dom", "hr", "2030-01-01T00:00:00Z"]] = []
    ∧ read_challenges_from_csv [["id1", "ff000000", "dom", "hr"]] = []
    ∧ read_challenges_from_csv
        ([["id1", "ff000000", "dom", "hr", "2030-01-01T00:00:00Z"]]
          ++ [["id2", "", "dom", "hr", "x"]])
      = read_challenges_from_csv [["id1", "ff000000", "dom", "hr", "2030-01-01T00:00:00Z"]]
          ++ read_challenges_from_csv [["id2", "", "dom", "hr", "x"]] :=
  ⟨(C9_csv_row_filtering ["id1", "ff000000", "dom", "hr", "2030-01-01T00:00:00Z"] []).2.1
      (by decide) (by decide) (by decide) (by decide),
    (C9_csv_row_filtering ["id1", "", "dom", "hr", "2030-01-01T00:00:00Z"] []).2.2.1
      (by decide) (Or.inr (Or.inl (by decide))),
    (C9_csv_row_filtering ["id1", "ff000000", "dom", "hr"] []).2.2.2 (by decide),
    (C9_csv_row_filtering ["id1", "ff000000", "dom", "hr", "2030-01-01T00:00:00Z"]
      [["id2", "", "dom", "hr", "x"]]).1⟩

/-! ### Helper lemmas on the worker attempt loop -/

theorem workerLoopGo_stop_stuck (env : WorkerEnv) (fuel : Nat) (st : WorkerState)
    (h : st.stop = true) : workerLoopGo env fuel st = st := by
  cases fuel with
  | zero => rfl
  | succ fuel => simp only [workerLoopGo]; rw [h]; simp

theorem workerLoopGo_deadline_stuck (env : WorkerEnv) (fuel : Nat) (st : WorkerState)
    (h : deadlineExpired env.latest_ts env.now = true) : workerLoopGo env fuel st = st := by
  cases fuel with
  | zero => rfl
  | succ fuel =>
    simp only [workerLoopGo]
    cases hstop : st.stop
    · rw [h]; simp
    · simp

/-- Skipping `k` consecutive no-response exchanges: each consumes one
loop iteration and one exchange, and counts nothing else. -/
theorem workerLoopGo_skip_none (env : WorkerEnv)
    (hdl : deadlineExpired env.latest_ts env.now = false) :
    ∀ (k fuel : Nat) (st : WorkerState), st.stop = false →
    (∀ i, i < k → ∀ p, env.oracle (st.exchanges + i) p = none) →
    workerLoopGo env (k + fuel) st
      = workerLoopGo env fuel { st with exchanges := st.exchanges + k } := by
  intro k
  induction k with
  | zero =>
    intro fuel st _ _
    norm_num
  | succ k ih =>
    intro fuel st hstop hor
    have hstep : workerLoopGo env (k + 1 + fuel) st
        = workerLoopGo env (k + fuel) { st with exchanges := st.exchanges + 1 } := by
      rw [show k + 1 + fuel = (k + fuel) + 1 from by omega]
      simp only [workerLoopGo]
      rw [hstop, hdl]
      simp only [Bool.false_eq_true, if_false]
      have h0 : env.oracle st.exchanges
          (pre_with_rom (env.nonces st.exchanges) env.address env.challenge) = none := by
        have := hor 0 (by omega)
          (pre_with_rom (env.nonces st.exchanges) env.address env.challenge)
        rw [Nat.add_zero] at this
        exact this
      rw [h0]
    rw [hstep]
    rw [ih fuel { st with exchanges := st.exchanges + 1 } (by simpa using hstop)
      (by intro i hi p
          show env.oracle (st.exchanges + 1 + i) p = none
          rw [show st.exchanges + 1 + i = st.exchanges + (i + 1) from by omega]
          exact hor (i + 1) (by omega) p)]
    show workerLoopGo env fuel { st with exchanges := st.exchanges + 1 + k } = _
    rw [show st.exchanges + 1 + k = st.exchanges + (k + 1) from by omega]

/-- One successful exchange whose hash meets the difficulty: the hash,
try and solution counters each advance by one, one exchange happens,
and the loop breaks (regardless of `submit_on_find`). -/
theorem workerLoopGo_found_fields (env : WorkerEnv) (fuel : Nat) (st : WorkerState)
    (hsh : String) (hstop : st.stop = false)
    (hdl : deadlineExpired env.latest_ts env.now = false)
    (hor : env.oracle st.exchanges
        (pre_with_rom (env.nonces st.exchanges) env.address env.challenge) = some hsh)
    (hmeets : hash_meets_difficulty hsh env.challenge.difficulty = true) :
    (workerLoopGo env (fuel + 1) st).hashes = st.hashes + 1
    ∧ (workerLoopGo env (fuel + 1) st).exchanges = st.exchanges + 1
    ∧ (workerLoopGo env (fuel + 1) st).solutions = st.solutions + 1
    ∧ (workerLoopGo env (fuel + 1) st).tries = st.tries + 1 := by
  simp only [workerLoopGo]
  rw [hstop, hdl]
  simp only [Bool.false_eq_true, if_false]
  rw [hor]
  simp only [hmeets, if_true]
  by_cases hs : env.submit_on_find <;> simp [hs]

/-- `deadlineExpired` never fires when the deadline failed to parse. -/
theorem deadlineExpired_none (now : Int) : deadlineExpired none now = false := rfl

/-- When `latest_submission` did not parse (`latest_ts = None`), the
loop never consults the clock: its result is independent of `now`. -/
theorem workerLoopGo_now_irrelevant (env : WorkerEnv) (n2 : Int)
    (hnone : env.latest_ts = none) :
    ∀ (fuel : Nat) (st : WorkerState),
      workerLoopGo { env with now := n2 } fuel st = workerLoopGo env fuel st := by
  intro fuel
  induction fuel with
  | zero => intro st; rfl
  | succ fuel ih =>
    intro st
    have hd1 : deadlineExpired env.latest_ts n2 = false := by
      rw [hnone]; rfl
    have hd2 : deadlineExpired env.latest_ts env.now = false := by
      rw [hnone]; rfl
    simp only [workerLoopGo]
    cases hstop : st.stop
    · simp only [hd1, hd2, Bool.false_eq_true, if_false]
      cases horc : env.oracle st.exchanges
          (pre_with_rom (env.nonces st.exchanges) env.address env.challenge) with
      | none =>
        dsimp only
        exact ih _
      | some hsh =>
        dsimp only
        by_cases hm : hash_meets_difficulty hsh env.challenge.difficulty = true
        · rw [if_pos hm, if_pos hm]
        · rw [if_neg hm, if_neg hm]
          exact ih _
    · rfl

/-! ### Claim theorems on the worker attempt loop -/

/-- A concrete challenge whose difficulty `FFFFFFFF` is met by every
well-formed hash. -/
def demoChallenge : Challenge :=
  ⟨"chal-1", "FFFFFFFF", "dom", some "hr", "2030-01-01T00:00:00Z"⟩

/-- Scripted worker environment: the oracle gives no response on the
first two exchanges and a difficulty-meeting hash on the third; no
parsed deadline. -/
def envC4 : WorkerEnv :=
  { address := "addr"
    challenge := demoChallenge
    latest_ts := none
    now := 0
    nonces := fun _ => "0123456789abcdef"
    oracle := fun i _ => if i < 2 then none else some "00000000"
    endpoint := fun _ => some 201
    submit_on_find := false }

/-- C4 counterexample: with no response on requests 1..2 and a
difficulty-meeting hash on request 3 (N = 3), the worker's hash counter
is 1 after the find — not N - 1 = 2 as the claim states. -/
theorem C4_hash_counter_counterexample :
    envC4.oracle 0 "p" = none ∧ envC4.oracle 1 "p" = none
    ∧ envC4.oracle 2 "p" = some "00000000"
    ∧ hash_meets_difficulty "00000000" envC4.challenge.difficulty = true
    ∧ (workerBatch envC4 false).hashes = 1
    ∧ (workerBatch envC4 false).hashes ≠ 3 - 1 := by decide

/-- C4 (amended): an exchange with no oracle response increments
nothing, and every exchange that returns a line increments the hash
counter by exactly one before difficulty is evaluated; so with no
response on requests `1..N-1` and a difficulty-meeting hash on request
`N`, a single worker's hash counter equals exactly 1 after that point
(the N - 1 failed exchanges are not counted), after exactly `N`
exchanges and one counted solution. -/
theorem C4_hash_counter (env : WorkerEnv) (N : Nat) (h1 : 1 ≤ N) (h2 : N ≤ NONCE_BATCH)
    (hdl : deadlineExpired env.latest_ts env.now = false)
    (hnone : ∀ i, i < N - 1 → ∀ p, env.oracle i p = none)
    (hsh : String) (hornth : ∀ p, env.oracle (N - 1) p = some hsh)
    (hmeets : hash_meets_difficulty hsh env.challenge.difficulty = true) :
    (workerBatch env false).hashes = 1 ∧ (workerBatch env false).exchanges = N
    ∧ (workerBatch env false).solutions = 1 := by
  obtain ⟨f, hf⟩ : ∃ f, NONCE_BATCH - (N - 1) = f + 1 :=
    ⟨NONCE_BATCH - (N - 1) - 1, by unfold NONCE_BATCH at *; omega⟩
  have hskip : workerBatch env false
      = workerLoopGo env (NONCE_BATCH - (N - 1)) ⟨N - 1, 0, 0, 0, false, 0, 0⟩ := by
    unfold workerBatch NONCE_BATCH
    conv_lhs => rw [show (1024 : Nat) = (N - 1) + (1024 - (N - 1)) from by
      unfold NONCE_BATCH at h2; omega]
    rw [workerLoopGo_skip_none env hdl (N - 1) (1024 - (N - 1)) ⟨0, 0, 0, 0, false, 0, 0⟩ rfl
      (by intro i hi p
          show env.oracle (0 + i) p = none
          rw [Nat.zero_add]
          exact hnone i hi p)]
    norm_num
  have hor : env.oracle ((⟨N - 1, 0, 0, 0, false, 0, 0⟩ : WorkerState).exchanges)
      (pre_with_rom (env.nonces ((⟨N - 1, 0, 0, 0, false, 0, 0⟩ : WorkerState).exchanges))
        env.address env.challenge) = some hsh := hornth _
  have hfound := workerLoopGo_found_fields env f ⟨N - 1, 0, 0, 0, false, 0, 0⟩ hsh rfl hdl
    hor hmeets
  refine ⟨?_, ?_, ?_⟩
  · rw [hskip, hf, hfound.1]
  · rw [hskip, hf, hfound.2.1]
    show N - 1 + 1 = N
    omega
  · rw [hskip, hf, hfound.2.2.1]

/-- Closed instance of the amended C4 at the scripted environment with
N = 3. -/
theorem C4_hash_counter_witness :
    (workerBatch envC4 false).hashes = 1 ∧ (workerBatch envC4 false).exchanges = 3
    ∧ (workerBatch envC4 false).solutions = 1 :=
  C4_hash_counter envC4 3 (by decide) (by decide) (by decide)
    (fun i hi p => by simp [envC4, hi]) "00000000"
    (fun p => by simp [envC4]) (by decide)

/-- Scripted worker environment whose challenge deadline parsed to the
Unix epoch (timestamp `0.0`), with the clock far past it. -/
def envC6 : WorkerEnv :=
  { address := "addr"
    challenge := demoChallenge
    latest_ts := some 0
    now := 1767225600
    nonces := fun _ => "0123456789abcdef"
    oracle := fun _ _ => some "00000000"
    endpoint := fun _ => some 201
    submit_on_find := false }

/-- Scripted worker environment whose challenge deadline parsed to a
nonzero timestamp in the past. -/
def envC6b : WorkerEnv :=
  { address := "addr"
    challenge := demoChallenge
    latest_ts := some 100
    now := 1767225600
    nonces := fun _ => "0123456789abcdef"
    oracle := fun _ _ => some "00000000"
    endpoint := fun _ => some 201
    submit_on_find := false }

/-- C6 counterexample: a `latest_submission` of the Unix epoch
(`1970-01-01T00:00:00+00:00`) parses to timestamp `0.0`, which lies in
the past, yet the worker performs an oracle exchange anyway: the guard
`if latest_ts and time.time() > latest_ts` treats the falsy float `0.0`
as "no deadline". -/
theorem C6_deadline_counterexample :
    envC6.latest_ts = some 0 ∧ (0 : Int) < envC6.now
    ∧ (workerBatch envC6 false).exchanges = 1
    ∧ (workerBatch envC6 false).exchanges ≠ 0 := by decide

/-- C6 (amended): if `latest_submission` parses to a nonzero timestamp
strictly in the past, a worker performs zero oracle exchanges (and
counts zero hashes) before going back to re-acquire a challenge; if it
fails to parse, the worker proceeds with attempts and never consults
the clock. The one exception, forced by Python truthiness, is a parsed
timestamp of exactly `0.0` (the Unix epoch), which is treated as "no
deadline". -/
theorem C6_deadline_enforcement (env : WorkerEnv) (t : Int) (s0 : Bool) :
    (env.latest_ts = some t → t ≠ 0 → t < env.now →
      (workerBatch env s0).exchanges = 0 ∧ (workerBatch env s0).hashes = 0)
    ∧ (env.latest_ts = none → ∀ n2 : Int,
        workerBatch { env with now := n2 } s0 = workerBatch env s0) := by
  constructor
  · intro hts ht hlt
    have hdl : deadlineExpired env.latest_ts env.now = true := by
      rw [hts]
      simp [deadlineExpired, ht, hlt]
    cases s0 with
    | true =>
      unfold workerBatch
      rw [workerLoopGo_stop_stuck env NONCE_BATCH ⟨0, 0, 0, 0, true, 0, 0⟩ rfl]
      exact ⟨rfl, rfl⟩
    | false =>
      unfold workerBatch
      rw [workerLoopGo_deadline_stuck env NONCE_BATCH ⟨0, 0, 0, 0, false, 0, 0⟩ hdl]
      exact ⟨rfl, rfl⟩
  · intro hn n2
    unfold workerBatch
    exact workerLoopGo_now_irrelevant env n2 hn NONCE_BATCH ⟨0, 0, 0, 0, s0, 0, 0⟩

/-- Closed instance of the amended C6: a nonzero past deadline gives
zero exchanges and zero hashes. -/
theorem C6_deadline_enforcement_witness :
    envC6b.latest_ts = some 100 ∧ (100 : Int) ≠ 0 ∧ (100 : Int) < envC6b.now
    ∧ ((workerBatch envC6b false).exchanges = 0
        ∧ (workerBatch envC6b false).hashes = 0) :=
  ⟨rfl, by decide, by decide,
    (C6_deadline_enforcement envC6b 100 false).1 rfl (by decide) (by decide)⟩
